import Mathlib

/-!
Verification of the deferred rendering command pipeline of the lemon3d engine:
the `Frame` command buffer and its backend dispatch (src/video/backends/frame.rs),
the `Location`/`LocationAtom` resource-identity keys (src/resource/utils/location.rs),
texture setup validation (src/video/assets/texture.rs), and the location-keyed,
refcounted resource registry together with `Scene::create_pipeline`
(modules/scene/src/scene.rs).

Machine integers: handles, tokens, counters and byte values are modelled as `Nat`;
no arithmetic in the modelled code can overflow `u32`/`u64` on the inputs we
consider, and none of the verified properties depend on wrap-around.
Rust `Result` is modelled as `Except`, panics as `Except.error`.
-/

namespace Lemon

/-! ### Location and LocationAtom (src/resource/utils/location.rs) -/

/-- The private `Signature` enum of location.rs: `Unique`, `Shared`,
`TokenShared(u8)`.  The `u8` token is modelled as `Nat`. -/
inductive Signature where
  | Unique : Signature
  | Shared : Signature
  | TokenShared : Nat → Signature
deriving DecidableEq, Repr

/-- `Signature::is_shared`: false exactly on `Unique`. -/
def Signature.is_shared : Signature → Bool
  | Signature.Unique => false
  | _ => true

/-- `Location<'a>`: a signature plus a borrowed path.  Paths are modelled as
`String` (path equality in the source is component-wise equality of the two
`Path`s; for the byte-level claims here it coincides with string equality). -/
structure Location where
  code : Signature
  location : String
deriving DecidableEq, Repr

/-- `Location::unique`. -/
def Location.unique (p : String) : Location := ⟨Signature.Unique, p⟩

/-- `Location::shared`. -/
def Location.shared (p : String) : Location := ⟨Signature.Shared, p⟩

/-- `Location::token`. -/
def Location.token (code : Nat) (p : String) : Location := ⟨Signature.TokenShared code, p⟩

/-- `Location::is_shared`. -/
def Location.is_shared (l : Location) : Bool := l.code.is_shared

/-- `impl PartialEq for Location`: shared locations compare by signature and
path; a `Unique` left-hand side makes the comparison false. -/
def Location.eq (a b : Location) : Bool :=
  if a.code.is_shared then decide (a.code = b.code) && decide (a.location = b.location)
  else false

/-- `impl Hash for Location`: hashing a shared location feeds the signature and
the path to the hasher (we model the hash of a location as exactly this fed
data, so equal feeds mean equal hashes); hashing a `Unique` location panics
with "Trying to hash unique location.".  The panic is modelled as
`Except.error`. -/
def Location.runHash (a : Location) : Except String (Signature × String) :=
  if a.code.is_shared then Except.ok (a.code, a.location)
  else Except.error "Trying to hash unique location."

/-- `LocationAtom`: the owned projection of a `Location`; the path is captured
as `HashValue<Path>`, a content hash, which we model by the path contents
itself. -/
structure LocationAtom where
  code : Signature
  location : String
deriving DecidableEq, Repr

/-- `Location::hash(&self) -> LocationAtom` (the method, not the `Hash` impl). -/
def Location.hash (a : Location) : LocationAtom := ⟨a.code, a.location⟩

/-- `LocationAtom::is_shared`. -/
def LocationAtom.is_shared (a : LocationAtom) : Bool := a.code.is_shared

/-- `impl PartialEq for LocationAtom`: same shape as for `Location`. -/
def LocationAtom.eq (a b : LocationAtom) : Bool :=
  if a.code.is_shared then decide (a.code = b.code) && decide (a.location = b.location)
  else false

/-- `impl Hash for LocationAtom`: same shape as for `Location`, panics on
`Unique`. -/
def LocationAtom.runHash (a : LocationAtom) : Except String (Signature × String) :=
  if a.code.is_shared then Except.ok (a.code, a.location)
  else Except.error "Trying to hash unique location."

/-! ### Texture setup validation (src/video/assets/texture.rs) -/

/-- `TextureHint`. -/
inductive TextureHint where
  | Immutable : TextureHint
  | Stream : TextureHint
  | Dynamic : TextureHint
deriving DecidableEq, Repr

/-- `TextureFilter`. -/
inductive TextureFilter where
  | Nearest : TextureFilter
  | Linear : TextureFilter
deriving DecidableEq, Repr

/-- `TextureAddress`. -/
inductive TextureAddress where
  | Repeat : TextureAddress
  | Mirror : TextureAddress
  | Clamp : TextureAddress
  | MirrorClamp : TextureAddress
deriving DecidableEq, Repr

/-- `TextureFormat`. -/
inductive TextureFormat where
  | U8 | U8U8 | U8U8U8 | U8U8U8U8
  | U5U6U5 | U4U4U4U4 | U5U5U5U1 | U10U10U10U2
  | F16 | F16F16 | F16F16F16 | F16F16F16F16
  | F32 | F32F32 | F32F32F32 | F32F32F32F32
deriving DecidableEq, Repr

/-- `RenderTextureFormat`. -/
inductive RenderTextureFormat where
  | RGB8 | RGBA4 | RGBA8 | Depth16 | Depth24 | Depth32 | Depth24Stencil8
deriving DecidableEq, Repr

/-- `TextureParams`; `Vector2<u32>` dimensions modelled as a pair of `Nat`. -/
structure TextureParams where
  format : TextureFormat
  address : TextureAddress
  filter : TextureFilter
  hint : TextureHint
  mipmap : Bool
  dimensions : Nat × Nat
deriving DecidableEq, Repr

/-- `RenderTextureSetup` (= `RenderTextureParams`). -/
structure RenderTextureSetup where
  format : RenderTextureFormat
  address : TextureAddress
  filter : TextureFilter
  dimensions : Nat × Nat
  sampler : Bool
deriving DecidableEq, Repr

/-- Modelled from the spec: the `video::errors::Error` enum is not under src/;
only the variant used by `TextureSetup::validate` is modelled, from its use in
texture.rs. -/
inductive VideoError where
  | CreateMutableSharedObject : VideoError
deriving DecidableEq, Repr

/-- `TextureSetup<'a>`; the optional borrowed initial data `&[u8]` is modelled
as an optional list of byte values. -/
structure TextureSetup where
  location : Location
  params : TextureParams
  data : Option (List Nat)

/-- `TextureSetup::validate`: rejects a mutable texture under a shared
location; a pure function of the setup (it queues no command and mutates no
state). -/
def TextureSetup.validate (s : TextureSetup) : Except VideoError Unit :=
  if s.location.is_shared then
    if s.params.hint ≠ TextureHint.Immutable then
      Except.error VideoError.CreateMutableSharedObject
    else Except.ok ()
  else Except.ok ()

/-! ### Scratch arena (utils::DataBuffer) -/

/-- `DataBufferPtr`: a relocatable pointer into the arena, a byte offset plus a
length (the element type tag of the source is irrelevant here: both payload
kinds are modelled as lists of `Nat`). -/
structure DataBufferPtr where
  position : Nat
  len : Nat
deriving DecidableEq, Repr

/-- Modelled from the spec: `utils::DataBuffer` is not under src/.  An
append-only byte store; `as_slice` reconstructs the written run, `clear`
resets the write cursor (observably: empties the contents). -/
structure DataBuffer where
  buf : List Nat
deriving DecidableEq, Repr

/-- Modelled from the spec: `DataBuffer::as_slice` returns the `len` elements
starting at `position`. -/
def DataBuffer.as_slice (b : DataBuffer) (p : DataBufferPtr) : List Nat :=
  (b.buf.drop p.position).take p.len

/-- Modelled from the spec: `DataBuffer::clear` resets the write cursor to
zero. -/
def DataBuffer.clear (_ : DataBuffer) : DataBuffer := ⟨[]⟩

/-! ### Commands and the Frame (src/video/backends/frame.rs)

Handles and the parameter structs that `dispatch` forwards opaquely to the
visitor are modelled as `Nat` (dispatch never inspects them); `TextureParams`
and `RenderTextureSetup` are kept concrete since they are defined under src/.
-/

abbrev Dims := Nat × Nat
abbrev SurfaceHandle := Nat
abbrev ShaderHandle := Nat
abbrev TextureHandle := Nat
abbrev RenderTextureHandle := Nat
abbrev MeshHandle := Nat
abbrev MeshIndex := Nat
abbrev SurfaceScissor := Nat
abbrev SurfaceViewport := Nat
abbrev SurfaceParams := Nat
abbrev ShaderParams := Nat
abbrev MeshParams := Nat
abbrev TextureData := List Nat
abbrev MeshData := List Nat
abbrev Aabb2 := Nat × Nat × Nat × Nat

/-- The `Command` enum of frame.rs: the closed set of tagged backend
operations. -/
inductive Command where
  | Bind : SurfaceHandle → Command
  | Draw : ShaderHandle → MeshHandle → MeshIndex → DataBufferPtr → Command
  | UpdateScissor : SurfaceScissor → Command
  | UpdateViewport : SurfaceViewport → Command
  | CreateSurface : SurfaceHandle → SurfaceParams → Command
  | DeleteSurface : SurfaceHandle → Command
  | CreateShader : ShaderHandle → ShaderParams → String → String → Command
  | DeleteShader : ShaderHandle → Command
  | CreateTexture : TextureHandle → TextureParams → Option TextureData → Command
  | UpdateTexture : TextureHandle → Aabb2 → DataBufferPtr → Command
  | DeleteTexture : TextureHandle → Command
  | CreateRenderTexture : RenderTextureHandle → RenderTextureSetup → Command
  | DeleteRenderTexture : RenderTextureHandle → Command
  | CreateMesh : MeshHandle → MeshParams → Option MeshData → Command
  | UpdateVertexBuffer : MeshHandle → Nat → DataBufferPtr → Command
  | UpdateIndexBuffer : MeshHandle → Nat → DataBufferPtr → Command
  | DeleteMesh : MeshHandle → Command
deriving DecidableEq, Repr

/-- True exactly on the `Draw` variant. -/
def Command.isDraw : Command → Bool
  | Command.Draw _ _ _ _ => true
  | _ => false

/-- One observable visitor invocation: one constructor per `Command` variant
(with the arena pointers already resolved to slices, and `bind` carrying the
viewport dimensions as in the source) plus the lifecycle verbs `advance` and
`flush`. -/
inductive Call where
  | advance : Call
  | bind : SurfaceHandle → Dims → Call
  | draw : ShaderHandle → MeshHandle → MeshIndex → List Nat → Call
  | update_surface_scissor : SurfaceScissor → Call
  | update_surface_viewport : SurfaceViewport → Call
  | create_surface : SurfaceHandle → SurfaceParams → Call
  | delete_surface : SurfaceHandle → Call
  | create_shader : ShaderHandle → ShaderParams → String → String → Call
  | delete_shader : ShaderHandle → Call
  | create_texture : TextureHandle → TextureParams → Option TextureData → Call
  | update_texture : TextureHandle → Aabb2 → List Nat → Call
  | delete_texture : TextureHandle → Call
  | create_render_texture : RenderTextureHandle → RenderTextureSetup → Call
  | delete_render_texture : RenderTextureHandle → Call
  | create_mesh : MeshHandle → MeshParams → Option MeshData → Call
  | update_vertex_buffer : MeshHandle → Nat → List Nat → Call
  | update_index_buffer : MeshHandle → Nat → List Nat → Call
  | delete_mesh : MeshHandle → Call
  | flush : Call
deriving DecidableEq, Repr

/-- True exactly on the `draw` verb. -/
def Call.isDraw : Call → Bool
  | Call.draw _ _ _ _ => true
  | _ => false

/-- The visitor verb a command is replayed as, with its embedded arena
pointers resolved against the frame's own arena (step 3 of dispatch). -/
def Command.toCall (bufs : DataBuffer) (dims : Dims) : Command → Call
  | Command.Bind surface => Call.bind surface dims
  | Command.Draw shader mesh mi ptr => Call.draw shader mesh mi (bufs.as_slice ptr)
  | Command.UpdateScissor scissor => Call.update_surface_scissor scissor
  | Command.UpdateViewport view => Call.update_surface_viewport view
  | Command.CreateSurface h p => Call.create_surface h p
  | Command.DeleteSurface h => Call.delete_surface h
  | Command.CreateShader h p vs fs => Call.create_shader h p vs fs
  | Command.DeleteShader h => Call.delete_shader h
  | Command.CreateTexture h p d => Call.create_texture h p d
  | Command.UpdateTexture h area ptr => Call.update_texture h area (bufs.as_slice ptr)
  | Command.DeleteTexture h => Call.delete_texture h
  | Command.CreateRenderTexture h p => Call.create_render_texture h p
  | Command.DeleteRenderTexture h => Call.delete_render_texture h
  | Command.CreateMesh h p d => Call.create_mesh h p d
  | Command.UpdateVertexBuffer h off ptr => Call.update_vertex_buffer h off (bufs.as_slice ptr)
  | Command.UpdateIndexBuffer h off ptr => Call.update_index_buffer h off (bufs.as_slice ptr)
  | Command.DeleteMesh h => Call.delete_mesh h

/-- Modelled from the spec: the backend visitor contract (`backends::Visitor`
is not under src/) — an interface with one verb per `Command` variant plus the
lifecycle verbs, each fallible, `draw` returning the triangle count actually
submitted.  Modelled as a state machine over an abstract backend state `σ`: a
single step function receives the verb with its arguments and either fails
with an error `E` or returns the submitted triangle count (meaningful only for
`draw`; every other verb returns `()` in the source and the count is ignored)
together with the mutated backend state. -/
structure Visitor (E σ : Type) where
  step : Call → σ → Except E (Nat × σ)

/-- Wraps a visitor so that, in addition to the base behaviour, the backend
state carries the list of successfully performed calls in order, and a failing
call reports which call failed alongside the base error.  This is the "test
double visitor recording invocation order and count" of the spec, used to
state the dispatch-ordering claims. -/
def traced {E σ : Type} (vis : Visitor E σ) : Visitor (E × Call) (σ × List Call) :=
  ⟨fun c p =>
    match vis.step c p.1 with
    | Except.error e => Except.error (e, c)
    | Except.ok (n, s1) => Except.ok (n, (s1, p.2 ++ [c]))⟩

/-- The command-draining loop of `Frame::dispatch`: one arm per `Command`
variant, invoking the corresponding visitor verb (resolving arena pointers via
`as_slice` where the source does); a failing verb stops the loop and returns
the error with the backend state reached so far; `Draw` bumps the draw counter
and accumulates the returned triangle count. -/
def dispatchLoop {E σ : Type} (vis : Visitor E σ) (bufs : DataBuffer) (dims : Dims) :
    List Command → σ → Nat → Nat → (Except E (Nat × Nat)) × σ
  | [], s, dc, tris => (Except.ok (dc, tris), s)
  | c :: rest, s, dc, tris =>
    match c with
    | Command.Bind surface =>
      match vis.step (Call.bind surface dims) s with
      | Except.error e => (Except.error e, s)
      | Except.ok (_, s1) => dispatchLoop vis bufs dims rest s1 dc tris
    | Command.Draw shader mesh mi ptr =>
      match vis.step (Call.draw shader mesh mi (bufs.as_slice ptr)) s with
      | Except.error e => (Except.error e, s)
      | Except.ok (n, s1) => dispatchLoop vis bufs dims rest s1 (dc + 1) (tris + n)
    | Command.UpdateScissor scissor =>
      match vis.step (Call.update_surface_scissor scissor) s with
      | Except.error e => (Except.error e, s)
      | Except.ok (_, s1) => dispatchLoop vis bufs dims rest s1 dc tris
    | Command.UpdateViewport view =>
      match vis.step (Call.update_surface_viewport view) s with
      | Except.error e => (Except.error e, s)
      | Except.ok (_, s1) => dispatchLoop vis bufs dims rest s1 dc tris
    | Command.CreateSurface h p =>
      match vis.step (Call.create_surface h p) s with
      | Except.error e => (Except.error e, s)
      | Except.ok (_, s1) => dispatchLoop vis bufs dims rest s1 dc tris
    | Command.DeleteSurface h =>
      match vis.step (Call.delete_surface h) s with
      | Except.error e => (Except.error e, s)
      | Except.ok (_, s1) => dispatchLoop vis bufs dims rest s1 dc tris
    | Command.CreateShader h p vs fs =>
      match vis.step (Call.create_shader h p vs fs) s with
      | Except.error e => (Except.error e, s)
      | Except.ok (_, s1) => dispatchLoop vis bufs dims rest s1 dc tris
    | Command.DeleteShader h =>
      match vis.step (Call.delete_shader h) s with
      | Except.error e => (Except.error e, s)
      | Except.ok (_, s1) => dispatchLoop vis bufs dims rest s1 dc tris
    | Command.CreateTexture h p d =>
      match vis.step (Call.create_texture h p d) s with
      | Except.error e => (Except.error e, s)
      | Except.ok (_, s1) => dispatchLoop vis bufs dims rest s1 dc tris
    | Command.UpdateTexture h area ptr =>
      match vis.step (Call.update_texture h area (bufs.as_slice ptr)) s with
      | Except.error e => (Except.error e, s)
      | Except.ok (_, s1) => dispatchLoop vis bufs dims rest s1 dc tris
    | Command.DeleteTexture h =>
      match vis.step (Call.delete_texture h) s with
      | Except.error e => (Except.error e, s)
      | Except.ok (_, s1) => dispatchLoop vis bufs dims rest s1 dc tris
    | Command.CreateRenderTexture h p =>
      match vis.step (Call.create_render_texture h p) s with
      | Except.error e => (Except.error e, s)
      | Except.ok (_, s1) => dispatchLoop vis bufs dims rest s1 dc tris
    | Command.DeleteRenderTexture h =>
      match vis.step (Call.delete_render_texture h) s with
      | Except.error e => (Except.error e, s)
      | Except.ok (_, s1) => dispatchLoop vis bufs dims rest s1 dc tris
    | Command.CreateMesh h p d =>
      match vis.step (Call.create_mesh h p d) s with
      | Except.error e => (Except.error e, s)
      | Except.ok (_, s1) => dispatchLoop vis bufs dims rest s1 dc tris
    | Command.UpdateVertexBuffer h off ptr =>
      match vis.step (Call.update_vertex_buffer h off (bufs.as_slice ptr)) s with
      | Except.error e => (Except.error e, s)
      | Except.ok (_, s1) => dispatchLoop vis bufs dims rest s1 dc tris
    | Command.UpdateIndexBuffer h off ptr =>
      match vis.step (Call.update_index_buffer h off (bufs.as_slice ptr)) s with
      | Except.error e => (Except.error e, s)
      | Except.ok (_, s1) => dispatchLoop vis bufs dims rest s1 dc tris
    | Command.DeleteMesh h =>
      match vis.step (Call.delete_mesh h) s with
      | Except.error e => (Except.error e, s)
      | Except.ok (_, s1) => dispatchLoop vis bufs dims rest s1 dc tris

/-- The `Frame`: an ordered command list plus the scratch arena. -/
structure Frame where
  cmds : List Command
  bufs : DataBuffer
deriving DecidableEq, Repr

/-- `Frame::clear`: truncates the command list and resets the arena. -/
def Frame.clear (f : Frame) : Frame := ⟨[], f.bufs.clear⟩

/-- `Frame::dispatch`: `advance`, drain the command list in order invoking one
verb per command, `flush`, clear the command list, and return the accumulated
`(draw_count, triangle_count)`.  The returned triple is (result, backend state
reached, frame afterwards).  If `advance` itself fails the drain never starts
and the command list is untouched; once the drain has started, an early `?`
return drops the `Drain` iterator, which removes the whole drained range, so
the command list is empty on every such path (the explicit `cmds.clear()` of
the source on the success path is subsumed by this). -/
def Frame.dispatch {E σ : Type} (vis : Visitor E σ) (f : Frame) (dims : Dims) (s : σ) :
    (Except E (Nat × Nat)) × σ × Frame :=
  match vis.step Call.advance s with
  | Except.error e => (Except.error e, s, f)
  | Except.ok (_, s1) =>
    match dispatchLoop vis f.bufs dims f.cmds s1 0 0 with
    | (Except.error e, s2) => (Except.error e, s2, { f with cmds := [] })
    | (Except.ok (dc, tris), s2) =>
      match vis.step Call.flush s2 with
      | Except.error e => (Except.error e, s2, { f with cmds := [] })
      | Except.ok (_, s3) => (Except.ok (dc, tris), s3, { f with cmds := [] })

/-! ### Reference interpreters over flat call lists

These follow the spec's wording of the dispatch contract (one verb per
command, in order, first error aborts, only draws counted) and are the yard-
stick the 17-arm loop is proved against. -/

/-- Reference interpreter: runs a flat list of calls in order, stopping at the
first error (returning the state just before the failing call), counting draw
calls and summing their returned triangle counts. -/
def runCallsAgg {E σ : Type} (vis : Visitor E σ) :
    List Call → σ → Nat → Nat → (Except E (Nat × Nat)) × σ
  | [], s, dc, tris => (Except.ok (dc, tris), s)
  | c :: rest, s, dc, tris =>
    match vis.step c s with
    | Except.error e => (Except.error e, s)
    | Except.ok (n, s1) =>
      if c.isDraw then runCallsAgg vis rest s1 (dc + 1) (tris + n)
      else runCallsAgg vis rest s1 dc tris

/-- Runs a list of calls for the state effect only, stopping at the first
error. -/
def runState {E σ : Type} (vis : Visitor E σ) : List Call → σ → Except E σ
  | [], s => Except.ok s
  | c :: rest, s =>
    match vis.step c s with
    | Except.error e => Except.error e
    | Except.ok (_, s1) => runState vis rest s1

/-- Runs a list of calls collecting, in order, the values the visitor returned
for the `draw` calls (and only those). -/
def runDraws {E σ : Type} (vis : Visitor E σ) : List Call → σ → Except E (List Nat × σ)
  | [], s => Except.ok ([], s)
  | c :: rest, s =>
    match vis.step c s with
    | Except.error e => Except.error e
    | Except.ok (n, s1) =>
      match runDraws vis rest s1 with
      | Except.error e => Except.error e
      | Except.ok (ns, s2) => Except.ok ((if c.isDraw then n :: ns else ns), s2)

/-- The number of `Draw` commands in a command list. -/
def drawCount (cmds : List Command) : Nat := cmds.countP (fun c => Command.isDraw c)

/-! ### Registry and Scene::create_pipeline (modules/scene/src/scene.rs) -/

/-- Modelled from the spec: one record of `Registery<T>` (the registry type is
not under src/): the stored value, its reference count, and the
`LocationAtom` it is registered under (none for `Unique` locations). -/
structure RegEntry (T : Type) where
  handle : Nat
  value : T
  rc : Nat
  atom : Option LocationAtom

/-- Modelled from the spec: `Registery<T>` — a lookup map from `LocationAtom`
to handle (shared locations only) and a map from handle to record, with a
fresh-handle counter (the generation-checked slot index of the source is
abstracted as a never-reused numeric id).  Both maps are modelled as
association lists probed with the source's `PartialEq`. -/
structure Registery (T : Type) where
  lookups : List (LocationAtom × Nat)
  records : List (RegEntry T)
  next : Nat

/-- Modelled from the spec: `Registery::new`. -/
def Registery.new {T : Type} : Registery T := ⟨[], [], 0⟩

/-- Modelled from the spec: `Registery::lookup` — `none` for `Unique`
locations; for shared ones, the handle under an equal `LocationAtom` if any. -/
def Registery.lookup {T : Type} (r : Registery T) (loc : Location) : Option Nat :=
  if loc.is_shared then
    (r.lookups.find? (fun pr => LocationAtom.eq pr.1 loc.hash)).map (fun pr => pr.2)
  else none

/-- Modelled from the spec: `Registery::inc_rc` — bumps the refcount of the
record with the given handle. -/
def Registery.inc_rc {T : Type} (r : Registery T) (h : Nat) : Registery T :=
  { r with
    records := r.records.map (fun en =>
      if en.handle = h then { en with rc := en.rc + 1 } else en) }

/-- Modelled from the spec: `Registery::create` — for a shared location with an
existing equal `LocationAtom`, bumps the refcount and returns the existing
handle, discarding `v`; otherwise allocates a fresh handle, stores `v` with
refcount 1, and (for shared locations only) inserts into the lookup map. -/
def Registery.create {T : Type} (r : Registery T) (loc : Location) (v : T) :
    Nat × Registery T :=
  if loc.is_shared then
    match r.lookups.find? (fun pr => LocationAtom.eq pr.1 loc.hash) with
    | some pr => (pr.2, r.inc_rc pr.2)
    | none =>
      (r.next,
       { lookups := (loc.hash, r.next) :: r.lookups,
         records := ⟨r.next, v, 1, some loc.hash⟩ :: r.records,
         next := r.next + 1 })
  else
    (r.next,
     { r with
       records := ⟨r.next, v, 1, none⟩ :: r.records,
       next := r.next + 1 })

/-- Modelled from the spec: `Registery::get` — the stored value, if the handle
is live. -/
def Registery.get {T : Type} (r : Registery T) (h : Nat) : Option T :=
  (r.records.find? (fun en => en.handle == h)).map (fun en => en.value)

/-- Modelled from the spec: `Registery::get_mut` — observably the same lookup
as `get` (mutable access is irrelevant in the functional model). -/
def Registery.get_mut {T : Type} (r : Registery T) (h : Nat) : Option T :=
  (r.records.find? (fun en => en.handle == h)).map (fun en => en.value)

/-- The reference count of a live handle (observer used by the claims; the
source exposes it through its record type). -/
def Registery.rc_of {T : Type} (r : Registery T) (h : Nat) : Option Nat :=
  (r.records.find? (fun en => en.handle == h)).map (fun en => en.rc)

/-- `PipelineSetup` (modules/3d assets, not under src/): the location the
pipeline is registered under plus its shader setup, the latter modelled
opaquely as `Nat`. -/
structure PipelineSetup where
  location : Location
  shader_setup : Nat

/-- The pipeline registry slice of `Scene` (scene.rs). -/
structure SceneModel (P : Type) where
  pipelines : Registery P

/-- `Scene::lookup_pipeline`. -/
def SceneModel.lookup_pipeline {P : Type} (sc : SceneModel P) (loc : Location) : Option Nat :=
  sc.pipelines.lookup loc

/-- `Scene::create_pipeline` (scene.rs): if the location already resolves to a
pipeline, bump its refcount and return the existing handle; otherwise create
the shader and register new pipeline params.  The external
`video.create_shader` and `PipelineParams::new` (not under src/) are passed as
parameters. -/
def SceneModel.create_pipeline {P : Type} (sc : SceneModel P) (setup : PipelineSetup)
    (create_shader : Nat → Except Unit Nat) (mkParams : Nat → Nat → P) :
    Except Unit (Nat × SceneModel P) :=
  match sc.lookup_pipeline setup.location with
  | some h => Except.ok (h, ⟨sc.pipelines.inc_rc h⟩)
  | none =>
    match create_shader setup.shader_setup with
    | Except.error e => Except.error e
    | Except.ok sh =>
      let pr := sc.pipelines.create setup.location (mkParams sh setup.shader_setup)
      Except.ok (pr.1, ⟨pr.2⟩)

/-! ### Concrete fixtures used by witnesses and counterexamples -/

/-- A visitor that always succeeds, returning triangle count 1 and counting
its invocations in the state. -/
def countVis : Visitor Unit Nat := ⟨fun _ s => Except.ok (1, s + 1)⟩

/-- A visitor that always succeeds, returning triangle count 2 per call. -/
def triVis : Visitor Unit Nat := ⟨fun _ s => Except.ok (2, s + 1)⟩

/-- A visitor that fails on every call. -/
def failVis : Visitor Unit Nat := ⟨fun _ _ => Except.error ()⟩

/-- A visitor that fails on its third invocation (advance is the first, so the
second command verb fails), counting invocations in the state. -/
def failAt2 : Visitor Nat Nat :=
  ⟨fun _ s => if s = 2 then Except.error 7 else Except.ok (0, s + 1)⟩

/-- A one-command frame with an empty arena. -/
def frame1 : Frame := ⟨[Command.Bind 0], ⟨[]⟩⟩

/-- A two-command frame with an empty arena. -/
def frame2 : Frame := ⟨[Command.Bind 5, Command.DeleteMesh 3], ⟨[]⟩⟩

/-- A three-command frame with an empty arena. -/
def frame3 : Frame := ⟨[Command.Bind 1, Command.Bind 2, Command.Bind 3], ⟨[]⟩⟩

/-- A frame with two draws around a bind, with an empty arena. -/
def frame4 : Frame :=
  ⟨[Command.Draw 1 2 3 ⟨0, 0⟩, Command.Bind 0, Command.Draw 4 5 6 ⟨0, 0⟩], ⟨[]⟩⟩

/-- A scene whose pipeline registry already holds handle 0 under the shared
path "p" with refcount 1. -/
def sceneW : SceneModel Nat :=
  ⟨⟨[(⟨Signature.Shared, "p"⟩, 0)], [⟨0, 42, 1, some ⟨Signature.Shared, "p"⟩⟩], 1⟩⟩

/-- A pipeline setup under the shared path "p". -/
def setupW : PipelineSetup := ⟨Location.shared "p", 9⟩

/-- A shader-creation stand-in that always succeeds with handle 0. -/
def okShader : Nat → Except Unit Nat := fun _ => Except.ok 0

/-- A pipeline-params constructor stand-in. -/
def mkParamsW : Nat → Nat → Nat := fun a b => a + b

/-! ### Theorems: location identity (C4, C5, C6, C10) -/

/-- C4: for every two Locations built with `Location::unique` — including two
built from the same path string, and including a location compared against
itself — the equality test evaluates to false. -/
theorem unique_location_never_equal (p q : String) :
    Location.eq (Location.unique p) (Location.unique q) = false ∧
    Location.eq (Location.unique p) (Location.unique p) = false := by
  constructor <;> rfl

/-- C5: `Shared` locations are equal iff their paths are equal, and equal
shared locations hash equally; `TokenShared` locations with distinct tokens
and the same path are unequal; and the same contract holds for the
`LocationAtom` projections. -/
theorem shared_location_eq_hash_contract :
    (∀ p q : String,
      Location.eq (Location.shared p) (Location.shared q) = true ↔ p = q) ∧
    (∀ p q : String,
      Location.eq (Location.shared p) (Location.shared q) = true →
      Location.runHash (Location.shared p) = Location.runHash (Location.shared q)) ∧
    (∀ (t1 t2 : Nat) (p : String), t1 ≠ t2 →
      Location.eq (Location.token t1 p) (Location.token t2 p) = false) ∧
    (∀ p q : String,
      LocationAtom.eq (Location.shared p).hash (Location.shared q).hash = true ↔ p = q) ∧
    (∀ p q : String,
      LocationAtom.eq (Location.shared p).hash (Location.shared q).hash = true →
      LocationAtom.runHash (Location.shared p).hash =
        LocationAtom.runHash (Location.shared q).hash) ∧
    (∀ (t1 t2 : Nat) (p : String), t1 ≠ t2 →
      LocationAtom.eq (Location.token t1 p).hash (Location.token t2 p).hash = false) := by
  refine ⟨?_, ?_, ?_, ?_, ?_, ?_⟩
  · intro p q
    simp [Location.eq, Location.shared, Signature.is_shared]
  · intro p q h
    have hpq : p = q := by
      simpa [Location.eq, Location.shared, Signature.is_shared] using h
    subst hpq
    rfl
  · intro t1 t2 p h
    simp [Location.eq, Location.token, Signature.is_shared, h]
  · intro p q
    simp [LocationAtom.eq, Location.shared, Location.hash, LocationAtom.is_shared,
      Signature.is_shared]
  · intro p q h
    have hpq : p = q := by
      simpa [LocationAtom.eq, Location.shared, Location.hash, Signature.is_shared] using h
    subst hpq
    rfl
  · intro t1 t2 p h
    simp [LocationAtom.eq, Location.token, Location.hash, Signature.is_shared, h]

/-- C5 witness: the contract evaluated at concrete locations. -/
theorem shared_location_eq_hash_contract_witness :
    Location.eq (Location.shared "foo.png") (Location.shared "foo.png") = true ∧
    Location.runHash (Location.shared "a") = Location.runHash (Location.shared "a") ∧
    Location.eq (Location.token 0 "foo.png") (Location.token 1 "foo.png") = false ∧
    LocationAtom.eq (Location.token 0 "foo.png").hash (Location.token 1 "foo.png").hash
      = false :=
  ⟨(shared_location_eq_hash_contract.1 "foo.png" "foo.png").2 rfl,
   shared_location_eq_hash_contract.2.1 "a" "a"
     ((shared_location_eq_hash_contract.1 "a" "a").2 rfl),
   shared_location_eq_hash_contract.2.2.1 0 1 "foo.png" (by decide),
   shared_location_eq_hash_contract.2.2.2.2.2 0 1 "foo.png" (by decide)⟩

/-- C6: hashing a `Location` or a `LocationAtom` panics exactly when the value
is in the `Unique` variant; hashing any shared variant succeeds. -/
theorem unique_location_hash_panics :
    (∀ l : Location, l.runHash.isOk = false ↔ l.code = Signature.Unique) ∧
    (∀ a : LocationAtom, a.runHash.isOk = false ↔ a.code = Signature.Unique) := by
  constructor
  · intro l
    cases hl : l.code <;>
      simp [Location.runHash, Signature.is_shared, hl, Except.isOk, Except.toBool]
  · intro a
    cases ha : a.code <;>
      simp [LocationAtom.runHash, Signature.is_shared, ha, Except.isOk, Except.toBool]

/-- C10 counterexample: comparing a `Unique` location (here: with itself)
does not abort — the comparison totally evaluates, to `false`; likewise for
its `LocationAtom` projection.  Only hashing a `Unique` location panics. -/
theorem unique_compare_no_abort_cex :
    Location.eq (Location.unique "a") (Location.unique "a") = false ∧
    LocationAtom.eq (Location.unique "a").hash (Location.unique "a").hash = false := by
  constructor <;> rfl

/-- C10 (amended): an equality test in which a `Unique`-variant `Location` or
`LocationAtom` participates never aborts; it totally evaluates to `false`, on
either side of the comparison. -/
theorem unique_compare_returns_false (a b : Location) (x y : LocationAtom)
    (ha : a.code = Signature.Unique) (hx : x.code = Signature.Unique) :
    Location.eq a b = false ∧ Location.eq b a = false ∧
    LocationAtom.eq x y = false ∧ LocationAtom.eq y x = false := by
  refine ⟨?_, ?_, ?_, ?_⟩
  · simp [Location.eq, ha, Signature.is_shared]
  · cases hb : b.code with
    | Unique => simp [Location.eq, hb, Signature.is_shared]
    | Shared => simp [Location.eq, hb, ha, Signature.is_shared]
    | TokenShared t => simp [Location.eq, hb, ha, Signature.is_shared]
  · simp [LocationAtom.eq, hx, Signature.is_shared]
  · cases hy : y.code with
    | Unique => simp [LocationAtom.eq, hy, Signature.is_shared]
    | Shared => simp [LocationAtom.eq, hy, hx, Signature.is_shared]
    | TokenShared t => simp [LocationAtom.eq, hy, hx, Signature.is_shared]

/-- C10 (amended) witness: a unique location against a shared one, both ways,
and the atom projections likewise. -/
theorem unique_compare_returns_false_witness :
    Location.eq (Location.unique "u") (Location.shared "s") = false ∧
    Location.eq (Location.shared "s") (Location.unique "u") = false ∧
    LocationAtom.eq (Location.unique "u").hash (Location.shared "s").hash = false ∧
    LocationAtom.eq (Location.shared "s").hash (Location.unique "u").hash = false :=
  unique_compare_returns_false (Location.unique "u") (Location.shared "s")
    (Location.unique "u").hash (Location.shared "s").hash rfl rfl

/-! ### Theorems: texture setup validation (C7) -/

/-- C7: `TextureSetup::validate` returns `Error::CreateMutableSharedObject`
exactly when the location is shared and the hint is not `Immutable`, and
returns `Ok(())` in every other case; it is a pure function of the setup. -/
theorem texture_validate_characterization (s : TextureSetup) :
    (s.validate = Except.error VideoError.CreateMutableSharedObject ↔
      s.location.is_shared = true ∧ s.params.hint ≠ TextureHint.Immutable) ∧
    (s.validate = Except.ok () ↔
      ¬(s.location.is_shared = true ∧ s.params.hint ≠ TextureHint.Immutable)) := by
  by_cases hs : s.location.is_shared = true
  · by_cases hh : s.params.hint = TextureHint.Immutable
    · simp [TextureSetup.validate, hs, hh]
    · simp [TextureSetup.validate, hs, hh]
  · simp [TextureSetup.validate, hs]

/-! ### Helper lemmas about dispatch and the reference interpreters -/

/-- A command's projected call is never the `advance` lifecycle verb. -/
theorem toCall_ne_advance (bufs : DataBuffer) (dims : Dims) (c : Command) :
    Command.toCall bufs dims c ≠ Call.advance := by
  cases c <;> simp [Command.toCall]

/-- A command's projected call is never the `flush` lifecycle verb. -/
theorem toCall_ne_flush (bufs : DataBuffer) (dims : Dims) (c : Command) :
    Command.toCall bufs dims c ≠ Call.flush := by
  cases c <;> simp [Command.toCall]

/-- A command projects to a `draw` verb exactly when it is a `Draw` command. -/
theorem isDraw_toCall (bufs : DataBuffer) (dims : Dims) (c : Command) :
    Call.isDraw (Command.toCall bufs dims c) = Command.isDraw c := by
  cases c <;> rfl

/-- A successful base step makes the traced visitor append the call to the
log. -/
theorem traced_step_ok {E σ : Type} (vis : Visitor E σ) (c : Call) (s : σ) (t : List Call)
    (n : Nat) (s1 : σ) (hs : vis.step c s = Except.ok (n, s1)) :
    (traced vis).step c (s, t) = Except.ok (n, (s1, t ++ [c])) := by
  simp [traced, hs]

/-- A failing base step makes the traced visitor report the failing call. -/
theorem traced_step_error {E σ : Type} (vis : Visitor E σ) (c : Call) (s : σ) (t : List Call)
    (e : E) (hs : vis.step c s = Except.error e) :
    (traced vis).step c (s, t) = Except.error (e, c) := by
  simp [traced, hs]

/-- The 17-arm draining loop of `Frame::dispatch` is the canonical sequential
interpreter run over the commands' projected calls: each command is replayed
as exactly its corresponding verb, in submission order. -/
theorem dispatchLoop_eq_runCallsAgg {E σ : Type} (vis : Visitor E σ) (bufs : DataBuffer)
    (dims : Dims) :
    ∀ (cmds : List Command) (s : σ) (dc tris : Nat),
    dispatchLoop vis bufs dims cmds s dc tris =
      runCallsAgg vis (cmds.map (Command.toCall bufs dims)) s dc tris := by
  intro cmds
  induction cmds with
  | nil => intro s dc tris; rfl
  | cons c rest ih =>
    intro s dc tris
    cases c <;>
      (simp only [dispatchLoop, Command.toCall, List.map_cons, runCallsAgg]
       split <;> simp_all [Call.isDraw, ih])

/-- If the traced interpreter succeeds, the log grows by exactly the supplied
calls, in order, and the base state is the fold of the base visitor over
them. -/
theorem runCallsAgg_traced_ok {E σ : Type} (vis : Visitor E σ) :
    ∀ (calls : List Call) (s : σ) (t : List Call) (dc tris dc2 tris2 : Nat)
      (s2 : σ) (t2 : List Call),
    runCallsAgg (traced vis) calls (s, t) dc tris =
      (Except.ok (dc2, tris2), (s2, t2)) →
    t2 = t ++ calls ∧ runState vis calls s = Except.ok s2 := by
  intro calls
  induction calls with
  | nil =>
    intro s t dc tris dc2 tris2 s2 t2 h
    simp only [runCallsAgg, Prod.mk.injEq, Except.ok.injEq] at h
    obtain ⟨-, h2, h3⟩ := h
    subst h2; subst h3
    simp [runState]
  | cons c rest ih =>
    intro s t dc tris dc2 tris2 s2 t2 h
    cases hs : vis.step c s with
    | error e =>
      rw [runCallsAgg, traced_step_error vis c s t e hs] at h
      simp at h
    | ok p =>
      obtain ⟨n, s1⟩ := p
      rw [runCallsAgg, traced_step_ok vis c s t n s1 hs] at h
      by_cases hd : c.isDraw
      · simp only [hd, if_true] at h
        obtain ⟨h1, h2⟩ := ih s1 (t ++ [c]) (dc + 1) (tris + n) dc2 tris2 s2 t2 h
        constructor
        · simp [h1]
        · simp [runState, hs, h2]
      · simp only [hd, if_false, Bool.false_eq_true] at h
        obtain ⟨h1, h2⟩ := ih s1 (t ++ [c]) dc tris dc2 tris2 s2 t2 h
        constructor
        · simp [h1]
        · simp [runState, hs, h2]

/-- If the traced interpreter fails, it failed at the first failing call: the
log holds exactly the successfully executed preceding calls (a strict prefix),
the reported call is the one at that position, the reported error is exactly
the error that call's base step returned, and the base state is the fold over
the executed prefix (nothing is rolled back). -/
theorem runCallsAgg_traced_error {E σ : Type} (vis : Visitor E σ) :
    ∀ (calls : List Call) (s : σ) (t : List Call) (dc tris : Nat) (e : E) (c : Call)
      (s2 : σ) (t2 : List Call),
    runCallsAgg (traced vis) calls (s, t) dc tris =
      (Except.error (e, c), (s2, t2)) →
    ∃ k, ∃ hk : k < calls.length,
      t2 = t ++ calls.take k ∧
      c = calls.get ⟨k, hk⟩ ∧
      vis.step c s2 = Except.error e ∧
      runState vis (calls.take k) s = Except.ok s2 := by
  intro calls
  induction calls with
  | nil =>
    intro s t dc tris e c s2 t2 h
    simp [runCallsAgg] at h
  | cons c0 rest ih =>
    intro s t dc tris e c s2 t2 h
    cases hs : vis.step c0 s with
    | error e0 =>
      rw [runCallsAgg, traced_step_error vis c0 s t e0 hs] at h
      simp only [Prod.mk.injEq, Except.error.injEq] at h
      obtain ⟨⟨he, hc⟩, hs2, ht2⟩ := h
      subst he; subst hc; subst hs2; subst ht2
      refine ⟨0, by simp, by simp, rfl, hs, by simp [runState]⟩
    | ok p =>
      obtain ⟨n, s1⟩ := p
      rw [runCallsAgg, traced_step_ok vis c0 s t n s1 hs] at h
      have step : ∃ dcx trisx,
          runCallsAgg (traced vis) rest (s1, t ++ [c0]) dcx trisx =
            (Except.error (e, c), (s2, t2)) := by
        by_cases hd : c0.isDraw
        · simp only [hd, if_true] at h
          exact ⟨dc + 1, tris + n, h⟩
        · simp only [hd, if_false, Bool.false_eq_true] at h
          exact ⟨dc, tris, h⟩
      obtain ⟨dcx, trisx, hrec⟩ := step
      obtain ⟨k, hk, h1, h2, h3, h4⟩ := ih s1 (t ++ [c0]) dcx trisx e c s2 t2 hrec
      refine ⟨k + 1, by simpa using Nat.succ_lt_succ hk, ?_, ?_, h3, ?_⟩
      · simp [List.take_succ_cons, h1]
      · simpa using h2
      · simp [List.take_succ_cons, runState, hs, h4]

/-- A successful aggregated run validates the per-draw accounting: the draw
counter goes up by exactly the number of `draw` verbs, and the triangle
counter by exactly the sum of the values the visitor returned for them. -/
theorem runCallsAgg_ok_stats {E σ : Type} (vis : Visitor E σ) :
    ∀ (calls : List Call) (s : σ) (dc tris dc2 tris2 : Nat) (s2 : σ),
    runCallsAgg vis calls s dc tris = (Except.ok (dc2, tris2), s2) →
    ∃ ns s3, runDraws vis calls s = Except.ok (ns, s3) ∧ s3 = s2 ∧
      dc2 = dc + calls.countP (fun c => Call.isDraw c) ∧
      tris2 = tris + ns.sum := by
  intro calls
  induction calls with
  | nil =>
    intro s dc tris dc2 tris2 s2 h
    simp only [runCallsAgg, Prod.mk.injEq, Except.ok.injEq] at h
    obtain ⟨⟨h1, h2⟩, h3⟩ := h
    exact ⟨[], s, rfl, h3, by simp [h1.symm], by simp [h2.symm]⟩
  | cons c rest ih =>
    intro s dc tris dc2 tris2 s2 h
    rw [runCallsAgg] at h
    cases hs : vis.step c s with
    | error e => rw [hs] at h; simp at h
    | ok p =>
      obtain ⟨n, s1⟩ := p
      rw [hs] at h
      by_cases hd : c.isDraw
      · simp only [hd, if_true] at h
        obtain ⟨ns, s3, hr, hseq, hdc, htris⟩ := ih s1 (dc + 1) (tris + n) dc2 tris2 s2 h
        refine ⟨n :: ns, s3, ?_, hseq, ?_, ?_⟩
        · simp [runDraws, hs, hr, hd]
        · simp [List.countP_cons, hd, hdc]; omega
        · simp [htris]; omega
      · simp only [hd, if_false, Bool.false_eq_true] at h
        obtain ⟨ns, s3, hr, hseq, hdc, htris⟩ := ih s1 dc tris dc2 tris2 s2 h
        refine ⟨ns, s3, ?_, hseq, ?_, htris⟩
        · simp [runDraws, hs, hr, hd]
        · simp [List.countP_cons, hd, hdc]


/-- `flush` is not among any list of command-projected calls. -/
theorem flush_not_mem_toCalls (bufs : DataBuffer) (dims : Dims) (cmds : List Command) :
    Call.flush ∉ cmds.map (Command.toCall bufs dims) := by
  intro hmem
  obtain ⟨c, -, hc⟩ := List.mem_map.mp hmem
  exact toCall_ne_flush bufs dims c hc

/-- Counting `draw` verbs among the projected calls counts `Draw` commands. -/
theorem countP_isDraw_map (bufs : DataBuffer) (dims : Dims) (cmds : List Command) :
    (cmds.map (Command.toCall bufs dims)).countP (fun c => Call.isDraw c) =
      cmds.countP (fun c => Command.isDraw c) := by
  induction cmds with
  | nil => rfl
  | cons c rest ih => simp [List.countP_cons, ih, isDraw_toCall]

/-! ### Theorems: frame dispatch (C1, C2, C8, C9) -/

/-- C1: a successful `Frame::dispatch` invokes `advance` exactly once before
any command verb, then exactly one corresponding verb per encoded command in
exact submission order (no reordering, skipping or duplication), then `flush`
exactly once after the last command's verb — stated through the recording
visitor: the recorded invocation log is exactly that sequence. -/
theorem dispatch_calls_visitor_in_order {E σ : Type} (vis : Visitor E σ) (f : Frame)
    (dims : Dims) (s : σ) (dc tris : Nat) (s2 : σ) (t : List Call) (f2 : Frame)
    (h : Frame.dispatch (traced vis) f dims (s, []) =
      (Except.ok (dc, tris), (s2, t), f2)) :
    t = Call.advance :: f.cmds.map (Command.toCall f.bufs dims) ++ [Call.flush] := by
  rw [Frame.dispatch] at h
  cases hadv : vis.step Call.advance s with
  | error e =>
    rw [traced_step_error vis Call.advance s [] e hadv] at h
    simp at h
  | ok p =>
    obtain ⟨n0, s1⟩ := p
    rw [traced_step_ok vis Call.advance s [] n0 s1 hadv] at h
    dsimp only at h
    rw [dispatchLoop_eq_runCallsAgg] at h
    rcases hl : runCallsAgg (traced vis) (f.cmds.map (Command.toCall f.bufs dims))
        (s1, [] ++ [Call.advance]) 0 0 with ⟨res, sa, ta⟩
    rw [hl] at h
    cases res with
    | error e => simp at h
    | ok pr =>
      obtain ⟨dc0, tris0⟩ := pr
      dsimp only at h
      cases hfl : vis.step Call.flush sa with
      | error e =>
        rw [traced_step_error vis Call.flush sa ta e hfl] at h
        simp at h
      | ok pf =>
        obtain ⟨nf, s3⟩ := pf
        rw [traced_step_ok vis Call.flush sa ta nf s3 hfl] at h
        simp only [Prod.mk.injEq, Except.ok.injEq] at h
        obtain ⟨-, ⟨-, ht⟩, -⟩ := h
        obtain ⟨hta, -⟩ := runCallsAgg_traced_ok vis _ s1 ([] ++ [Call.advance]) 0 0
          dc0 tris0 sa ta hl
        rw [← ht, hta]
        simp

/-- C1 witness: a concrete two-command frame dispatched against a concrete
always-succeeding visitor records exactly advance, the two command verbs in
order, and flush. -/
theorem dispatch_calls_visitor_in_order_witness :
    [Call.advance, Call.bind 5 (4, 3), Call.delete_mesh 3, Call.flush] =
      Call.advance :: frame2.cmds.map (Command.toCall frame2.bufs (4, 3)) ++ [Call.flush] :=
  dispatch_calls_visitor_in_order countVis frame2 (4, 3) 0 0 0 4
    [Call.advance, Call.bind 5 (4, 3), Call.delete_mesh 3, Call.flush] ⟨[], ⟨[]⟩⟩ rfl

/-- C2: if a visitor call fails during `Frame::dispatch`, the failing call's
exact error is propagated, the recorded log contains exactly the successful
calls before the failure (no verb for any later command, and `flush` is never
among them), the failing call is the next call of the canonical sequence
(advance, the commands in order, flush), and nothing is rolled back: the final
backend state is exactly the fold of the executed prefix. -/
theorem dispatch_error_containment {E σ : Type} (vis : Visitor E σ) (f : Frame)
    (dims : Dims) (s : σ) (e : E) (c : Call) (s2 : σ) (t : List Call) (f2 : Frame)
    (h : Frame.dispatch (traced vis) f dims (s, []) =
      (Except.error (e, c), (s2, t), f2)) :
    vis.step c s2 = Except.error e ∧
    runState vis t s = Except.ok s2 ∧
    Call.flush ∉ t ∧
    ((t = [] ∧ c = Call.advance) ∨
     (∃ k, ∃ hk : k < f.cmds.length,
        t = Call.advance :: (f.cmds.take k).map (Command.toCall f.bufs dims) ∧
        c = Command.toCall f.bufs dims (f.cmds.get ⟨k, hk⟩)) ∨
     (t = Call.advance :: f.cmds.map (Command.toCall f.bufs dims) ∧ c = Call.flush)) := by
  rw [Frame.dispatch] at h
  cases hadv : vis.step Call.advance s with
  | error e0 =>
    rw [traced_step_error vis Call.advance s [] e0 hadv] at h
    simp only [Prod.mk.injEq, Except.error.injEq] at h
    obtain ⟨⟨he, hc⟩, ⟨hs2, ht⟩, -⟩ := h
    subst he; subst hc; subst hs2; subst ht
    exact ⟨hadv, rfl, by simp, Or.inl ⟨rfl, rfl⟩⟩
  | ok p =>
    obtain ⟨n0, s1⟩ := p
    rw [traced_step_ok vis Call.advance s [] n0 s1 hadv] at h
    dsimp only at h
    rw [dispatchLoop_eq_runCallsAgg] at h
    rcases hl : runCallsAgg (traced vis) (f.cmds.map (Command.toCall f.bufs dims))
        (s1, [] ++ [Call.advance]) 0 0 with ⟨res, sa, ta⟩
    rw [hl] at h
    cases res with
    | error pe =>
      obtain ⟨e1, c1⟩ := pe
      simp only [Prod.mk.injEq, Except.error.injEq] at h
      obtain ⟨⟨he, hc⟩, ⟨hs2, ht⟩, -⟩ := h
      subst he; subst hc; subst hs2; subst ht
      obtain ⟨k, hk, h1, h2, h3, h4⟩ := runCallsAgg_traced_error vis _ s1
        ([] ++ [Call.advance]) 0 0 e1 c1 sa ta hl
      have hk2 : k < f.cmds.length := by simpa using hk
      have htake : (f.cmds.map (Command.toCall f.bufs dims)).take k =
          (f.cmds.take k).map (Command.toCall f.bufs dims) := by
        simp [List.map_take]
      have hta : ta = Call.advance :: (f.cmds.take k).map (Command.toCall f.bufs dims) := by
        rw [h1, htake]; simp
      have hc1 : c1 = Command.toCall f.bufs dims (f.cmds.get ⟨k, hk2⟩) := by
        rw [h2]
        simp [List.get_eq_getElem, List.getElem_map]
      refine ⟨h3, ?_, ?_, Or.inr (Or.inl ⟨k, hk2, hta, hc1⟩)⟩
      · rw [hta, runState, hadv]
        rw [htake] at h4
        exact h4
      · rw [hta]
        intro hmem
        rcases List.mem_cons.mp hmem with hadv2 | hmem2
        · exact Call.noConfusion hadv2
        · exact flush_not_mem_toCalls f.bufs dims (f.cmds.take k) hmem2
    | ok pr =>
      obtain ⟨dc0, tris0⟩ := pr
      dsimp only at h
      cases hfl : vis.step Call.flush sa with
      | error ef =>
        rw [traced_step_error vis Call.flush sa ta ef hfl] at h
        simp only [Prod.mk.injEq, Except.error.injEq] at h
        obtain ⟨⟨he, hc⟩, ⟨hs2, ht⟩, -⟩ := h
        subst he; subst hc; subst hs2; subst ht
        obtain ⟨hta, hrun⟩ := runCallsAgg_traced_ok vis _ s1 ([] ++ [Call.advance]) 0 0
          dc0 tris0 sa ta hl
        have hta2 : ta = Call.advance :: f.cmds.map (Command.toCall f.bufs dims) := by
          rw [hta]; simp
        refine ⟨hfl, ?_, ?_, Or.inr (Or.inr ⟨hta2, rfl⟩)⟩
        · rw [hta2, runState, hadv]
          exact hrun
        · rw [hta2]
          intro hmem
          rcases List.mem_cons.mp hmem with hadv2 | hmem2
          · exact Call.noConfusion hadv2
          · exact flush_not_mem_toCalls f.bufs dims f.cmds hmem2
      | ok pf =>
        obtain ⟨nf, s3⟩ := pf
        rw [traced_step_ok vis Call.flush sa ta nf s3 hfl] at h
        simp at h

/-- C2 witness: a visitor whose second command verb fails, on a three-command
frame: the log holds advance and the first command's verb only, the failing
call is the second command's verb, its error (7) is propagated, and the state
reached by the first two calls is kept. -/
theorem dispatch_error_containment_witness :
    failAt2.step (Call.bind 2 (9, 9)) 2 = Except.error 7 ∧
    runState failAt2 [Call.advance, Call.bind 1 (9, 9)] 0 = Except.ok 2 ∧
    Call.flush ∉ [Call.advance, Call.bind 1 (9, 9)] ∧
    (([Call.advance, Call.bind 1 (9, 9)] = ([] : List Call) ∧
        Call.bind 2 (9, 9) = Call.advance) ∨
     (∃ k, ∃ hk : k < frame3.cmds.length,
        [Call.advance, Call.bind 1 (9, 9)] =
          Call.advance :: (frame3.cmds.take k).map (Command.toCall frame3.bufs (9, 9)) ∧
        Call.bind 2 (9, 9) = Command.toCall frame3.bufs (9, 9) (frame3.cmds.get ⟨k, hk⟩)) ∨
     ([Call.advance, Call.bind 1 (9, 9)] =
        Call.advance :: frame3.cmds.map (Command.toCall frame3.bufs (9, 9)) ∧
      Call.bind 2 (9, 9) = Call.flush)) :=
  dispatch_error_containment failAt2 frame3 (9, 9) 0 7 (Call.bind 2 (9, 9)) 2
    [Call.advance, Call.bind 1 (9, 9)] ⟨[], ⟨[]⟩⟩ rfl

/-- C8: a successful `Frame::dispatch` returns a draw count equal to exactly
the number of `Draw` commands in the frame and a triangle count equal to the
sum of the values the visitor's `draw` returned for those commands (commands
of every other variant contribute to neither). -/
theorem dispatch_draw_statistics {E σ : Type} (vis : Visitor E σ) (f : Frame)
    (dims : Dims) (s : σ) (dc tris : Nat) (s2 : σ) (f2 : Frame)
    (h : Frame.dispatch vis f dims s = (Except.ok (dc, tris), s2, f2)) :
    dc = drawCount f.cmds ∧
    ∃ n0 s1 ns s3, vis.step Call.advance s = Except.ok (n0, s1) ∧
      runDraws vis (f.cmds.map (Command.toCall f.bufs dims)) s1 = Except.ok (ns, s3) ∧
      tris = ns.sum := by
  rw [Frame.dispatch] at h
  cases hadv : vis.step Call.advance s with
  | error e => rw [hadv] at h; simp at h
  | ok p =>
    obtain ⟨n0, s1⟩ := p
    rw [hadv] at h
    dsimp only at h
    rw [dispatchLoop_eq_runCallsAgg] at h
    rcases hl : runCallsAgg vis (f.cmds.map (Command.toCall f.bufs dims)) s1 0 0
      with ⟨res, sa⟩
    rw [hl] at h
    cases res with
    | error e => simp at h
    | ok pr =>
      obtain ⟨dc0, tris0⟩ := pr
      dsimp only at h
      cases hfl : vis.step Call.flush sa with
      | error e => rw [hfl] at h; simp at h
      | ok pf =>
        obtain ⟨nf, s4⟩ := pf
        rw [hfl] at h
        simp only [Prod.mk.injEq, Except.ok.injEq] at h
        obtain ⟨⟨hdc, htris⟩, -, -⟩ := h
        obtain ⟨ns, s3, hr, -, hdc2, htris2⟩ :=
          runCallsAgg_ok_stats vis _ s1 0 0 dc0 tris0 sa hl
        refine ⟨?_, n0, s1, ns, s3, rfl, hr, ?_⟩
        · rw [← hdc, hdc2, drawCount, countP_isDraw_map]
          simp
        · rw [← htris, htris2]
          simp

/-- C8 witness: two draws (each reported as 2 triangles by the visitor) around
a bind give draw count 2 and triangle count 4. -/
theorem dispatch_draw_statistics_witness :
    2 = drawCount frame4.cmds ∧
    ∃ n0 s1 ns s3, triVis.step Call.advance 0 = Except.ok (n0, s1) ∧
      runDraws triVis (frame4.cmds.map (Command.toCall frame4.bufs (0, 0))) s1 =
        Except.ok (ns, s3) ∧
      4 = ns.sum :=
  dispatch_draw_statistics triVis frame4 (0, 0) 0 2 4 5 ⟨[], ⟨[]⟩⟩ rfl

/-- C9 counterexample: when the visitor's `advance` itself fails, the command
list is NOT empty after dispatch — the error is propagated but the drain never
started, so the frame keeps its commands, contradicting the claim for this
error case. -/
theorem dispatch_error_leaves_cmds_cex :
    (Frame.dispatch failVis frame1 (0, 0) 0).1 = Except.error () ∧
    (Frame.dispatch failVis frame1 (0, 0) 0).2.2.cmds ≠ [] := by
  refine ⟨rfl, ?_⟩
  intro h
  simp [Frame.dispatch, failVis, frame1] at h

/-- C9 (amended): `Frame::dispatch` never touches the scratch arena (contents
and cursor are unchanged on every path; resetting it is the caller's job via
`clear()`, which empties it); the command list is empty after dispatch on
every path on which the drain started — success, a failing command verb, or a
failing `flush` — while a failure of `advance` itself leaves the whole frame,
commands included, untouched. -/
theorem dispatch_frame_state {E σ : Type} (vis : Visitor E σ) (f : Frame) (dims : Dims)
    (s : σ) :
    (Frame.dispatch vis f dims s).2.2.bufs = f.bufs ∧
    (∀ e, vis.step Call.advance s = Except.error e →
      (Frame.dispatch vis f dims s).2.2 = f) ∧
    (∀ n0 s1, vis.step Call.advance s = Except.ok (n0, s1) →
      (Frame.dispatch vis f dims s).2.2.cmds = []) ∧
    (Frame.clear f).bufs.buf = [] := by
  refine ⟨?_, ?_, ?_, rfl⟩
  · rw [Frame.dispatch]
    cases hadv : vis.step Call.advance s with
    | error e => rfl
    | ok p =>
      obtain ⟨n0, s1⟩ := p
      dsimp only
      rcases hl : dispatchLoop vis f.bufs dims f.cmds s1 0 0 with ⟨res, sa⟩
      cases res with
      | error e => rfl
      | ok pr =>
        obtain ⟨dc, tris⟩ := pr
        cases hfl : vis.step Call.flush sa <;> simp [hfl]
  · intro e he
    rw [Frame.dispatch, he]
  · intro n0 s1 hadv
    rw [Frame.dispatch, hadv]
    dsimp only
    rcases hl : dispatchLoop vis f.bufs dims f.cmds s1 0 0 with ⟨res, sa⟩
    cases res with
    | error e => rfl
    | ok pr =>
      obtain ⟨dc, tris⟩ := pr
      cases hfl : vis.step Call.flush sa <;> simp [hfl]

/-- C9 (amended) witness: with an always-failing visitor the whole frame is
returned untouched; with an always-succeeding one the command list is empty
afterwards. -/
theorem dispatch_frame_state_witness :
    (Frame.dispatch failVis frame1 (0, 0) 0).2.2 = frame1 ∧
    (Frame.dispatch countVis frame1 (0, 0) 0).2.2.cmds = [] :=
  ⟨(dispatch_frame_state failVis frame1 (0, 0) 0).2.1 () rfl,
   (dispatch_frame_state countVis frame1 (0, 0) 0).2.2.1 1 1 rfl⟩

/-! ### Theorems: registry deduplication (C3) -/

/-- A shared location's atom is equal to itself under the source's
`PartialEq`. -/
theorem atom_eq_self_shared (p : String) :
    LocationAtom.eq (Location.shared p).hash (Location.shared p).hash = true := by
  simp [LocationAtom.eq, Location.shared, Location.hash, Signature.is_shared]

/-- Bumping the refcount of handle `h` is observable through `rc_of` as a
plain `+ 1` (list-level form). -/
theorem find_rc_map_bump {T : Type} (h : Nat) :
    ∀ l : List (RegEntry T),
    ((l.map (fun en => if en.handle = h then { en with rc := en.rc + 1 } else en)).find?
        (fun en => en.handle == h)).map (fun en => en.rc) =
      ((l.find? (fun en => en.handle == h)).map (fun en => en.rc)).map
        (fun n => n + 1) := by
  intro l
  induction l with
  | nil => rfl
  | cons en rest ih =>
    by_cases hh : en.handle = h
    · simp [List.find?_cons, hh]
    · simp [List.find?_cons, hh, ih, -List.find?_map]

/-- `inc_rc` is observable through `rc_of` as a plain `+ 1`. -/
theorem rc_of_inc_rc {T : Type} (r : Registery T) (h : Nat) :
    (r.inc_rc h).rc_of h = (r.rc_of h).map (fun n => n + 1) := by
  simpa [Registery.inc_rc, Registery.rc_of] using find_rc_map_bump h r.records

/-- C3: creating twice under the same `Shared` path returns the same handle
both times; the second create stores nothing (so `get_mut` still yields the
first value) and merely bumps the refcount to 2.  Correspondingly,
`Scene::create_pipeline` for a location that already has a `LocationAtom`
match bumps the refcount and returns the existing handle. -/
theorem registry_shared_create_dedup {T P : Type} :
    (∀ (r0 : Registery T) (p : String) (v1 v2 : T),
      r0.lookup (Location.shared p) = none →
      ((r0.create (Location.shared p) v1).2.create (Location.shared p) v2).1 =
          (r0.create (Location.shared p) v1).1 ∧
        ((r0.create (Location.shared p) v1).2.create (Location.shared p) v2).2.get_mut
          ((r0.create (Location.shared p) v1).1) = some v1 ∧
        ((r0.create (Location.shared p) v1).2.create (Location.shared p) v2).2.rc_of
          ((r0.create (Location.shared p) v1).1) = some 2) ∧
    (∀ (sc : SceneModel P) (setup : PipelineSetup) (shaderF : Nat → Except Unit Nat)
        (paramsF : Nat → Nat → P) (h n : Nat),
      sc.lookup_pipeline setup.location = some h →
      sc.pipelines.rc_of h = some n →
      ∃ sc2, sc.create_pipeline setup shaderF paramsF = Except.ok (h, sc2) ∧
        sc2.pipelines.rc_of h = some (n + 1)) := by
  constructor
  · intro r0 p v1 v2 hnone
    rw [Registery.lookup] at hnone
    simp only [Location.is_shared, Location.shared, Signature.is_shared, if_true,
      Option.map_eq_none'] at hnone
    have hcreate1 : r0.create (Location.shared p) v1 =
        (r0.next,
         ⟨((Location.shared p).hash, r0.next) :: r0.lookups,
          ⟨r0.next, v1, 1, some (Location.shared p).hash⟩ :: r0.records,
          r0.next + 1⟩) := by
      rw [Registery.create]
      simp [Location.is_shared, Location.shared, Signature.is_shared, hnone]
    rw [hcreate1]
    have hcreate2 :
        (Registery.create
          ⟨((Location.shared p).hash, r0.next) :: r0.lookups,
           ⟨r0.next, v1, 1, some (Location.shared p).hash⟩ :: r0.records,
           r0.next + 1⟩ (Location.shared p) v2 : Nat × Registery T) =
        (r0.next,
         Registery.inc_rc
          ⟨((Location.shared p).hash, r0.next) :: r0.lookups,
           ⟨r0.next, v1, 1, some (Location.shared p).hash⟩ :: r0.records,
           r0.next + 1⟩ r0.next) := by
      rw [Registery.create]
      simp [Location.is_shared, Location.shared, Location.hash, LocationAtom.eq,
        Signature.is_shared, List.find?_cons]
    rw [hcreate2]
    refine ⟨rfl, ?_, ?_⟩
    · simp [Registery.inc_rc, Registery.get_mut, List.find?_cons, -List.find?_map]
    · simp [Registery.inc_rc, Registery.rc_of, List.find?_cons, -List.find?_map]
  · intro sc setup shaderF paramsF h n hlook hrc
    refine ⟨⟨sc.pipelines.inc_rc h⟩, ?_, ?_⟩
    · rw [SceneModel.create_pipeline, hlook]
    · rw [rc_of_inc_rc, hrc]
      rfl

/-- C3 witness: from the empty registry, creating twice under `Shared "p"`
with values 1 then 2 yields the same handle, value 1, refcount 2; and a scene
already holding handle 0 under `Shared "p"` with refcount 1 returns handle 0
with refcount 2 from `create_pipeline`. -/
theorem registry_shared_create_dedup_witness :
    (((Registery.new.create (Location.shared "p") 1).2.create
        (Location.shared "p") 2).1 =
      (Registery.new.create (Location.shared "p") (1 : Nat)).1 ∧
     ((Registery.new.create (Location.shared "p") 1).2.create
        (Location.shared "p") 2).2.get_mut
       ((Registery.new.create (Location.shared "p") (1 : Nat)).1) = some 1 ∧
     ((Registery.new.create (Location.shared "p") 1).2.create
        (Location.shared "p") 2).2.rc_of
       ((Registery.new.create (Location.shared "p") (1 : Nat)).1) = some 2) ∧
    (∃ sc2, sceneW.create_pipeline setupW okShader mkParamsW = Except.ok (0, sc2) ∧
      sc2.pipelines.rc_of 0 = some (1 + 1)) :=
  ⟨(@registry_shared_create_dedup Nat Nat).1 Registery.new "p" 1 2 rfl,
   (@registry_shared_create_dedup Nat Nat).2 sceneW setupW okShader mkParamsW 0 1
     rfl rfl⟩

end Lemon
